import Mathlib

/-!
Verification development for the model-import pipeline of
`Source/Engine/ContentImporters/ImportModel.cpp` (Flax Engine).

The C++ code is shallowly embedded: meshes, LODs, material slots and import
options become Lean structures; float quantities are embedded as rationals;
external collaborators (scene parser, storage, rectangle packer internals,
math primitives) are either function parameters or definitions modelled from
the specification, marked as such in their doc comments.
-/

/-- A material slot (`MaterialSlotEntry` in `ModelData.h`): name, shadows
mode, material asset id, plus an opaque remainder of the record. -/
structure MaterialSlotEntry where
  name : List Nat
  shadowsMode : Nat
  assetID : Nat
  other : Nat
  deriving DecidableEq, Repr

/-- Default slot value used for (hypothesis-guarded) list indexing. -/
def dfltSlot : MaterialSlotEntry := ⟨[], 0, 0, 0⟩

/-- A mesh (`MeshData`): name (string as code points), material slot index,
lightmap UVs, and the externally computed triangle area
(`MeshData::CalculateTrianglesArea`, a geometry utility outside this file). -/
structure MeshData where
  name : List Nat
  materialSlotIndex : Nat
  lightmapUVs : List (ℚ × ℚ)
  area : ℚ
  deriving DecidableEq, Repr

/-- A level of detail: screen-size threshold and its mesh list. -/
structure LOD where
  screenSize : ℚ
  meshes : List MeshData
  deriving DecidableEq, Repr

/-- Default LOD used for (hypothesis-guarded) list indexing. -/
def dfltLOD : LOD := ⟨0, []⟩

/-- Parsed model data (`ModelData`): LODs, material slots, opaque skeleton and
node data, and animation names (used only by the animation split branch). -/
structure ModelData where
  lods : List LOD
  materials : List MaterialSlotEntry
  skeleton : Nat
  nodes : List Nat
  animations : List (List Nat)
  deriving DecidableEq, Repr

/-- Read `Array<int32>` cell `i` (out-of-range reads never happen under the
validity hypotheses; `-1` doubles as the sentinel the code stores). -/
def tget : List Int → Nat → Int
  | [], _ => -1
  | x :: _, 0 => x
  | _ :: t, n + 1 => tget t n

/-- Write `Array<int32>` cell `i`. -/
def tset : List Int → Nat → Int → List Int
  | [], _, _ => []
  | _ :: t, 0, v => v :: t
  | x :: t, n + 1, v => x :: tset t n v

/-- Read a material slot by index (`materials[i]`). -/
def mget : List MaterialSlotEntry → Nat → MaterialSlotEntry
  | [], _ => dfltSlot
  | x :: _, 0 => x
  | _ :: t, n + 1 => mget t n

/-- Append `x` to the accumulator unless already present (first-occurrence
order bookkeeping for the consolidation proof). -/
def addOcc {α : Type} [DecidableEq α] (acc : List α) (x : α) : List α :=
  if x ∈ acc then acc else acc ++ [x]

/-- Thread `addOcc` over a list. -/
def occsFrom {α : Type} [DecidableEq α] : List α → List α → List α
  | acc, [] => acc
  | acc, x :: t => occsFrom (addOcc acc x) t

/-- Distinct elements of a list in first-occurrence order. -/
def firstOccs {α : Type} [DecidableEq α] (l : List α) : List α := occsFrom [] l

/-- Position of the first occurrence of `x` in `l` (`l.length` if absent). -/
def posOf {α : Type} [DecidableEq α] (x : α) : List α → Nat
  | [] => 0
  | y :: t => if y = x then 0 else posOf x t + 1

/-- The inner loop of `SetupMaterialSlots` over one mesh list: threads the
`materialSlotsTable` remap array and the growing `data.Materials` table, and
rewrites each mesh's `MaterialSlotIndex` exactly as the C++ body does. -/
def runMeshes (materials : List MaterialSlotEntry) :
    List Int → List MaterialSlotEntry → List MeshData →
    List Int × List MaterialSlotEntry × List MeshData
  | table, acc, [] => (table, acc, [])
  | table, acc, m :: ms =>
    let old := m.materialSlotIndex
    let cur := tget table old
    if cur = -1 then
      let r := runMeshes materials (tset table old (Int.ofNat acc.length))
        (acc ++ [mget materials old]) ms
      (r.1, r.2.1, { m with materialSlotIndex := acc.length } :: r.2.2)
    else
      let r := runMeshes materials table acc ms
      (r.1, r.2.1, { m with materialSlotIndex := cur.toNat } :: r.2.2)

/-- The outer loop of `SetupMaterialSlots` over all LODs. -/
def runLods (materials : List MaterialSlotEntry) :
    List Int → List MaterialSlotEntry → List LOD →
    List Int × List MaterialSlotEntry × List LOD
  | table, acc, [] => (table, acc, [])
  | table, acc, lod :: ls =>
    let r := runMeshes materials table acc lod.meshes
    let r2 := runLods materials r.1 r.2.1 ls
    (r2.1, r2.2.1, { lod with meshes := r.2.2 } :: r2.2.2)

/-- `SetupMaterialSlots(data, materials)` as called in `ImportModel.cpp`
(both call sites clear `data.Materials` first): builds the consolidated slot
table and the rewritten LODs from the source slot table `materials`. -/
def setupMaterialSlots (materials : List MaterialSlotEntry) (lods : List LOD) :
    List MaterialSlotEntry × List LOD :=
  let r := runLods materials (List.replicate materials.length (-1)) [] lods
  (r.2.1, r.2.2)

theorem posOf_get_nodup {α : Type} [DecidableEq α] :
    ∀ (l : List α), l.Nodup → ∀ (p : Nat) (hp : p < l.length), posOf (l.get ⟨p, hp⟩) l = p := by
  intro l
  induction l with
  | nil => intro _ p hp; simp at hp
  | cons y ys ih =>
    intro hnd p hp
    cases p with
    | zero => simp [posOf]
    | succ q =>
      have hq : q < ys.length := by simpa using hp
      have hmem : ys.get ⟨q, hq⟩ ∈ ys := List.get_mem ys q hq
      have hy : y ≠ ys.get ⟨q, hq⟩ := by
        intro e; exact (List.nodup_cons.mp hnd).1 (e ▸ hmem)
      simp only [List.get_cons_succ, posOf, if_neg hy]
      rw [ih (List.nodup_cons.mp hnd).2 q hq]

theorem mem_occsFrom {α : Type} [DecidableEq α] :
    ∀ (l acc : List α) (y : α), y ∈ occsFrom acc l ↔ y ∈ acc ∨ y ∈ l := by
  intro l
  induction l with
  | nil => intro acc y; simp [occsFrom]
  | cons x xs ih =>
    intro acc y
    by_cases h : x ∈ acc
    · rw [show occsFrom acc (x :: xs) = occsFrom acc xs from by simp [occsFrom, addOcc, h]]
      rw [ih]
      constructor
      · rintro (ha | hx)
        · exact Or.inl ha
        · exact Or.inr (List.mem_cons_of_mem _ hx)
      · rintro (ha | hx)
        · exact Or.inl ha
        · cases hx with
          | head => exact Or.inl h
          | tail _ h' => exact Or.inr h'
    · rw [show occsFrom acc (x :: xs) = occsFrom (acc ++ [x]) xs from by
        simp [occsFrom, addOcc, h]]
      rw [ih]
      simp only [List.mem_append, List.mem_singleton, List.mem_cons]
      tauto

theorem nodup_occsFrom {α : Type} [DecidableEq α] :
    ∀ (l acc : List α), acc.Nodup → (occsFrom acc l).Nodup := by
  intro l
  induction l with
  | nil => intro acc h; simpa [occsFrom] using h
  | cons x xs ih =>
    intro acc h
    by_cases hx : x ∈ acc
    · rw [show occsFrom acc (x :: xs) = occsFrom acc xs from by simp [occsFrom, addOcc, hx]]
      exact ih acc h
    · rw [show occsFrom acc (x :: xs) = occsFrom (acc ++ [x]) xs from by
        simp [occsFrom, addOcc, hx]]
      refine ih _ ?_
      simp [List.nodup_append, h, hx]

/-- Default mesh value used for (hypothesis-guarded) list indexing. -/
def dfltMesh : MeshData := ⟨[], 0, [], 0⟩

/-- A mesh-name group (`IGrouping<StringView, MeshData*>`): the shared name
and the member meshes. -/
structure Grouping where
  key : List Nat
  members : List MeshData
  deriving DecidableEq, Repr

/-- Modelled from the spec: `ArrayExtensions::GroupBy` partitions the LOD-0
mesh list into named groups by exact name equality, keys in first-occurrence
order and members in input order (the order of the groups is irrelevant: the
caller sorts them immediately). -/
def groupBy (ms : List MeshData) : List Grouping :=
  (firstOccs (ms.map (fun m => m.name))).map
    (fun k => ⟨k, ms.filter (fun m => decide (m.name = k))⟩)

/-- Ordinal (code-point lexicographic) string comparison,
`String::Compare`. -/
def ordCompare : List Nat → List Nat → Ordering
  | [], [] => .eq
  | [], _ :: _ => .lt
  | _ :: _, [] => .gt
  | a :: as, b :: bs =>
    if a < b then .lt else if b < a then .gt else ordCompare as bs

/-- The `SortMeshGroups` comparator: key of `i1` compares ordinally below key
of `i2`. -/
def sortMeshGroups (i1 i2 : Grouping) : Bool :=
  decide (ordCompare i1.key i2.key = Ordering.lt)

/-- Ordered insertion of a group by the `SortMeshGroups` comparator. -/
def insertGroup (g : Grouping) : List Grouping → List Grouping
  | [] => [g]
  | h :: t => if sortMeshGroups g h then g :: h :: t else h :: insertGroup g t

/-- Modelled from the spec: `Sorting::QuickSort` with the `SortMeshGroups`
comparator sorts the group array ascending by key; keys are distinct, so any
correct comparison sort yields this insertion sort's output. -/
def sortGroups : List Grouping → List Grouping
  | [] => []
  | g :: t => insertGroup g (sortGroups t)

/-- Key-level image of `insertGroup`. -/
def insertKey (k : List Nat) : List (List Nat) → List (List Nat)
  | [] => [k]
  | h :: t => if ordCompare k h = .lt then k :: h :: t else h :: insertKey k t

/-- Key-level image of `sortGroups`. -/
def sortKeys : List (List Nat) → List (List Nat)
  | [] => []
  | k :: t => insertKey k (sortKeys t)

/-- Weak ordinal order on keys. -/
def KeyLe (a b : List Nat) : Prop := ordCompare a b ≠ .gt

/-- Strict ordinal order on keys. -/
def KeyLt (a b : List Nat) : Prop := ordCompare a b = .lt

theorem ordCompare_eq_iff : ∀ (a b : List Nat), ordCompare a b = .eq ↔ a = b := by
  intro a
  induction a with
  | nil => intro b; cases b <;> simp [ordCompare]
  | cons x as ih =>
    intro b
    cases b with
    | nil => simp [ordCompare]
    | cons y bs =>
      by_cases hxy : x < y
      · simp only [ordCompare, if_pos hxy]
        constructor
        · intro h; cases h
        · intro h
          injection h with h1 _
          omega
      · by_cases hyx : y < x
        · simp only [ordCompare, if_neg hxy, if_pos hyx]
          constructor
          · intro h; cases h
          · intro h
            injection h with h1 _
            omega
        · have hxyeq : x = y := by omega
          subst hxyeq
          simp [ordCompare, hxy, hyx, ih bs]

theorem ordCompare_swap : ∀ (a b : List Nat), ordCompare b a = (ordCompare a b).swap := by
  intro a
  induction a with
  | nil => intro b; cases b <;> simp [ordCompare, Ordering.swap]
  | cons x as ih =>
    intro b
    cases b with
    | nil => simp [ordCompare, Ordering.swap]
    | cons y bs =>
      by_cases hxy : x < y
      · have hyx : ¬ y < x := by omega
        simp [ordCompare, hxy, hyx, Ordering.swap]
      · by_cases hyx : y < x
        · simp [ordCompare, hxy, hyx, Ordering.swap]
        · simp [ordCompare, hxy, hyx, ih bs]

theorem keyLe_trans : ∀ (a b c : List Nat), KeyLe a b → KeyLe b c → KeyLe a c := by
  intro a
  induction a with
  | nil =>
    intro b c _ _
    cases c with
    | nil => simp [KeyLe, ordCompare]
    | cons z cs => simp [KeyLe, ordCompare]
  | cons x as ih =>
    intro b c hab hbc
    cases b with
    | nil => simp [KeyLe, ordCompare] at hab
    | cons y bs =>
      cases c with
      | nil => simp [KeyLe, ordCompare] at hbc
      | cons z cs =>
        simp only [KeyLe, ordCompare] at hab hbc ⊢
        by_cases hxy : x < y
        · -- x < y, and y ≤ z in the weak sense
          by_cases hyz : y < z
          · rw [if_pos (by omega)]; intro h; cases h
          · by_cases hzy : z < y
            · rw [if_neg hyz, if_pos hzy] at hbc; exact absurd rfl hbc
            · have : y = z := by omega
              subst this
              rw [if_pos hxy]; intro h; cases h
        · by_cases hyx : y < x
          · rw [if_neg hxy, if_pos hyx] at hab; exact absurd rfl hab
          · have hxyeq : x = y := by omega
            subst hxyeq
            rw [if_neg (lt_irrefl x), if_neg (lt_irrefl x)] at hab
            by_cases hxz : x < z
            · rw [if_pos hxz]; intro h; cases h
            · by_cases hzx : z < x
              · rw [if_neg hxz, if_pos hzx] at hbc; exact absurd rfl hbc
              · rw [if_neg hxz, if_neg hzx] at hbc ⊢
                exact ih bs cs hab hbc

theorem keyLe_of_lt {a b : List Nat} (h : KeyLt a b) : KeyLe a b := by
  rw [KeyLt] at h
  rw [KeyLe, h]
  intro hc
  cases hc

theorem keyLe_of_not_lt {a b : List Nat} (h : ¬ KeyLt a b) : KeyLe b a := by
  rw [KeyLt] at h
  rw [KeyLe, ordCompare_swap]
  cases hab : ordCompare a b with
  | lt => exact absurd hab h
  | eq => decide
  | gt => decide

theorem keyLt_irrefl (a : List Nat) : ¬ KeyLt a a := by
  rw [KeyLt, (ordCompare_eq_iff a a).mpr rfl]
  intro h
  cases h

theorem keyLt_asymm {a b : List Nat} (h : KeyLt a b) : ¬ KeyLt b a := by
  rw [KeyLt] at h ⊢
  rw [ordCompare_swap, h]
  intro hc
  cases hc

theorem keyLt_of_le_ne {a b : List Nat} (hle : KeyLe a b) (hne : a ≠ b) : KeyLt a b := by
  rw [KeyLe] at hle
  rw [KeyLt]
  cases hab : ordCompare a b with
  | lt => rfl
  | eq => exact absurd ((ordCompare_eq_iff a b).mp hab) hne
  | gt => exact absurd hab hle

theorem insertKey_perm (k : List Nat) : ∀ l, (insertKey k l).Perm (k :: l) := by
  intro l
  induction l with
  | nil => exact List.Perm.refl _
  | cons h t ih =>
    by_cases hc : ordCompare k h = .lt
    · rw [insertKey, if_pos hc]
    · rw [insertKey, if_neg hc]
      exact (List.Perm.cons h ih).trans (List.Perm.swap k h t)

theorem mem_insertKey {x k : List Nat} {l : List (List Nat)} :
    x ∈ insertKey k l ↔ x = k ∨ x ∈ l := by
  rw [(insertKey_perm k l).mem_iff, List.mem_cons]

theorem insertKey_pairwise (k : List Nat) :
    ∀ l, l.Pairwise KeyLe → (insertKey k l).Pairwise KeyLe := by
  intro l
  induction l with
  | nil => intro _; simp [insertKey]
  | cons h t ih =>
    intro hp
    rw [List.pairwise_cons] at hp
    obtain ⟨hht, hpt⟩ := hp
    by_cases hc : ordCompare k h = .lt
    · rw [insertKey, if_pos hc, List.pairwise_cons]
      constructor
      · intro x hx
        rcases List.mem_cons.mp hx with rfl | hxt
        · exact keyLe_of_lt hc
        · exact keyLe_trans k h x (keyLe_of_lt hc) (hht x hxt)
      · rw [List.pairwise_cons]
        exact ⟨hht, hpt⟩
    · rw [insertKey, if_neg hc, List.pairwise_cons]
      constructor
      · intro x hx
        rcases mem_insertKey.mp hx with rfl | hxt
        · exact keyLe_of_not_lt hc
        · exact hht x hxt
      · exact ih hpt

theorem sortKeys_perm : ∀ l, (sortKeys l).Perm l := by
  intro l
  induction l with
  | nil => exact List.Perm.refl _
  | cons k t ih =>
    rw [sortKeys]
    exact (insertKey_perm k (sortKeys t)).trans (List.Perm.cons k ih)

theorem sortKeys_pairwise : ∀ l, (sortKeys l).Pairwise KeyLe := by
  intro l
  induction l with
  | nil => simp [sortKeys]
  | cons k t ih => exact insertKey_pairwise k (sortKeys t) ih

theorem insertGroup_perm (g : Grouping) : ∀ l, (insertGroup g l).Perm (g :: l) := by
  intro l
  induction l with
  | nil => exact List.Perm.refl _
  | cons h t ih =>
    by_cases hc : sortMeshGroups g h = true
    · rw [insertGroup, if_pos hc]
    · rw [insertGroup, if_neg hc]
      exact (List.Perm.cons h ih).trans (List.Perm.swap g h t)

theorem sortGroups_perm : ∀ l, (sortGroups l).Perm l := by
  intro l
  induction l with
  | nil => exact List.Perm.refl _
  | cons g t ih =>
    rw [sortGroups]
    exact (insertGroup_perm g (sortGroups t)).trans (List.Perm.cons g ih)

theorem map_key_insertGroup (g : Grouping) :
    ∀ l, (insertGroup g l).map Grouping.key = insertKey g.key (l.map Grouping.key) := by
  intro l
  induction l with
  | nil => rfl
  | cons h t ih =>
    by_cases hc : ordCompare g.key h.key = .lt
    · rw [insertGroup, if_pos (by simp [sortMeshGroups, hc]), List.map_cons,
        List.map_cons, insertKey, if_pos hc]
    · rw [insertGroup, if_neg (by simp [sortMeshGroups, hc]), List.map_cons,
        List.map_cons, insertKey, if_neg hc, ih]

theorem map_key_sortGroups :
    ∀ l, (sortGroups l).map Grouping.key = sortKeys (l.map Grouping.key) := by
  intro l
  induction l with
  | nil => rfl
  | cons g t ih =>
    rw [sortGroups, map_key_insertGroup, ih, List.map_cons, sortKeys]

theorem sorted_nodup_ext :
    ∀ (l₁ l₂ : List (List Nat)), l₁.Pairwise KeyLt → l₂.Pairwise KeyLt →
    (∀ x, x ∈ l₁ ↔ x ∈ l₂) → l₁ = l₂ := by
  intro l₁
  induction l₁ with
  | nil =>
    intro l₂ _ _ hm
    cases l₂ with
    | nil => rfl
    | cons b t₂ => exact absurd ((hm b).mpr (List.mem_cons_self b t₂)) (List.not_mem_nil b)
  | cons a t₁ ih =>
    intro l₂ hp₁ hp₂ hm
    cases l₂ with
    | nil => exact absurd ((hm a).mp (List.mem_cons_self a t₁)) (List.not_mem_nil a)
    | cons b t₂ =>
      rw [List.pairwise_cons] at hp₁ hp₂
      obtain ⟨ha, hpt₁⟩ := hp₁
      obtain ⟨hb, hpt₂⟩ := hp₂
      have hab : a = b := by
        by_contra hne
        have ha2 : a ∈ b :: t₂ := (hm a).mp (List.mem_cons_self a t₁)
        have hb2 : b ∈ a :: t₁ := (hm b).mpr (List.mem_cons_self b t₂)
        rcases List.mem_cons.mp ha2 with h' | h'
        · exact hne h'
        · rcases List.mem_cons.mp hb2 with h'' | h''
          · exact hne h''.symm
          · exact keyLt_asymm (ha b h'') (hb a h')
      subst hab
      have htm : ∀ x, x ∈ t₁ ↔ x ∈ t₂ := by
        intro x
        constructor
        · intro hx
          have hxne : x ≠ a := fun e => keyLt_irrefl a (e ▸ ha x hx)
          rcases List.mem_cons.mp ((hm x).mp (List.mem_cons_of_mem a hx)) with h' | h'
          · exact absurd h' hxne
          · exact h'
        · intro hx
          have hxne : x ≠ a := fun e => keyLt_irrefl a (e ▸ hb x hx)
          rcases List.mem_cons.mp ((hm x).mpr (List.mem_cons_of_mem a hx)) with h' | h'
          · exact absurd h' hxne
          · exact h'
      rw [ih t₂ hpt₁ hpt₂ htm]

theorem keys_of_sortGroups_groupBy (l : List MeshData) :
    (sortGroups (groupBy l)).map Grouping.key =
      sortKeys (firstOccs (l.map (fun m => m.name))) := by
  rw [map_key_sortGroups, groupBy, List.map_map]
  have hcomp : (Grouping.key ∘ fun k =>
      Grouping.mk k (l.filter fun m => decide (m.name = k))) = id := rfl
  rw [hcomp, List.map_id]

theorem keys_pairwise_lt (l : List MeshData) :
    (sortKeys (firstOccs (l.map (fun m => m.name)))).Pairwise KeyLt := by
  have hle := sortKeys_pairwise (firstOccs (l.map (fun m => m.name)))
  have hnd : (sortKeys (firstOccs (l.map (fun m => m.name)))).Nodup :=
    ((sortKeys_perm _).nodup_iff).mpr (nodup_occsFrom _ [] List.nodup_nil)
  exact (hle.and hnd).imp (fun h => keyLt_of_le_ne h.1 h.2)

/-- C3: the LOD-0 mesh grouping stage partitions meshes by exact name
equality (each group's members are precisely the input meshes carrying its
key, every mesh's name is a group key), returns groups strictly ascending
under ordinal comparison, and input lists that are permutations of each other
produce the identical group key sequence. -/
theorem meshGrouping_sorted_deterministic (ms : List MeshData) :
    (∀ g ∈ sortGroups (groupBy ms),
      g.members = ms.filter (fun m => decide (m.name = g.key))) ∧
    (∀ m ∈ ms, ∃ g ∈ sortGroups (groupBy ms), g.key = m.name ∧ m ∈ g.members) ∧
    ((sortGroups (groupBy ms)).map Grouping.key).Pairwise KeyLt ∧
    (∀ ms' : List MeshData, ms.Perm ms' →
      (sortGroups (groupBy ms)).map Grouping.key =
        (sortGroups (groupBy ms')).map Grouping.key) := by
  refine ⟨?_, ?_, ?_, ?_⟩
  · intro g hg
    have hg' : g ∈ groupBy ms := (sortGroups_perm _).mem_iff.mp hg
    rw [groupBy, List.mem_map] at hg'
    obtain ⟨k, _, rfl⟩ := hg'
    rfl
  · intro m hm
    have hkmem : m.name ∈ firstOccs (ms.map (fun m => m.name)) := by
      have : m.name ∈ occsFrom [] (ms.map (fun m => m.name)) :=
        (mem_occsFrom _ _ _).mpr (Or.inr (List.mem_map.mpr ⟨m, hm, rfl⟩))
      exact this
    refine ⟨⟨m.name, ms.filter (fun x => decide (x.name = m.name))⟩, ?_, rfl, ?_⟩
    · refine (sortGroups_perm _).mem_iff.mpr ?_
      rw [groupBy]
      exact List.mem_map.mpr ⟨m.name, hkmem, rfl⟩
    · rw [List.mem_filter]
      exact ⟨hm, by simp⟩
  · rw [keys_of_sortGroups_groupBy]
    exact keys_pairwise_lt ms
  · intro ms' hp
    rw [keys_of_sortGroups_groupBy, keys_of_sortGroups_groupBy]
    refine sorted_nodup_ext _ _ (keys_pairwise_lt ms) (keys_pairwise_lt ms') ?_
    intro x
    rw [(sortKeys_perm _).mem_iff, (sortKeys_perm _).mem_iff]
    have h1 : x ∈ firstOccs (ms.map (fun m => m.name)) ↔
        x ∈ ms.map (fun m => m.name) := by
      have := mem_occsFrom (ms.map (fun m => m.name)) [] x
      simpa [firstOccs] using this
    have h2 : x ∈ firstOccs (ms'.map (fun m => m.name)) ↔
        x ∈ ms'.map (fun m => m.name) := by
      have := mem_occsFrom (ms'.map (fun m => m.name)) [] x
      simpa [firstOccs] using this
    rw [h1, h2]
    exact (hp.map (fun m => m.name)).mem_iff

/-- Concrete mesh list named A, B, A, C. -/
def c3Meshes : List MeshData :=
  [⟨[65], 0, [], 0⟩, ⟨[66], 0, [], 0⟩, ⟨[65], 1, [], 0⟩, ⟨[67], 0, [], 0⟩]

/-- A permutation of `c3Meshes`. -/
def c3MeshesPerm : List MeshData :=
  [⟨[67], 0, [], 0⟩, ⟨[65], 1, [], 0⟩, ⟨[66], 0, [], 0⟩, ⟨[65], 0, [], 0⟩]

/-- Witness for C3: a concrete permutation pair on which the grouping
determinism theorem applies. -/
theorem meshGrouping_sorted_deterministic_witness :
    c3Meshes.Perm c3MeshesPerm ∧
    (sortGroups (groupBy c3Meshes)).map Grouping.key =
      (sortGroups (groupBy c3MeshesPerm)).map Grouping.key :=
  ⟨by decide, (meshGrouping_sorted_deterministic c3Meshes).2.2.2 c3MeshesPerm (by decide)⟩

/-- Modelled from the spec: the engine-wide zero tolerance constant
(`ZeroTolerance`), a small positive threshold; its exact value is irrelevant
to the properties proved here. -/
def zeroTolerance : ℚ := 1 / 1000000

/-- A packed slot rectangle (`RectPack` node position and size). -/
structure SlotRect where
  x : ℚ
  y : ℚ
  w : ℚ
  h : ℚ
  deriving DecidableEq, Repr

/-- Modelled from the spec: a `RectPack<LightmapUVsPack, float>` tree node —
either a free/used leaf region or an inner node with two children produced by
a split-on-insert. -/
inductive PackNode where
  | leaf (x y w h : ℚ) (used : Bool)
  | branch (x y w h : ℚ) (c1 c2 : PackNode)
  deriving DecidableEq, Repr

/-- Modelled from the spec: `RectPack::Insert` — recursively find a free leaf
large enough for the requested footprint plus padding; on success mark a
placed cell and split the leftover space into up to two free regions,
returning the placed slot. -/
def insertRect : PackNode → ℚ → ℚ → ℚ → Option (SlotRect × PackNode)
  | .branch x y w h c1 c2, iw, ihh, pad =>
    match insertRect c1 iw ihh pad with
    | some (s, c1') => some (s, .branch x y w h c1' c2)
    | none =>
      match insertRect c2 iw ihh pad with
      | some (s, c2') => some (s, .branch x y w h c1 c2')
      | none => none
  | .leaf _ _ _ _ true, _, _, _ => none
  | .leaf x y w h false, iw, ihh, pad =>
    if iw + pad ≤ w ∧ ihh + pad ≤ h then
      some (⟨x, y, iw + pad, ihh + pad⟩,
        .branch x y w h
          (.leaf (x + (iw + pad)) y (w - (iw + pad)) (ihh + pad) false)
          (.leaf x (y + (ihh + pad)) w (h - (ihh + pad)) false))
    else none

/-- Insert every entry footprint in order, threading the tree; `none` as soon
as one insertion fails (the C++ loop breaks on the first failure). -/
def insertAll : PackNode → List ℚ → ℚ → Option (List SlotRect × PackNode)
  | t, [], _ => some ([], t)
  | t, s :: ss, pad =>
    match insertRect t s s pad with
    | none => none
    | some (slot, t') =>
      match insertAll t' ss pad with
      | none => none
      | some (slots, t'') => some (slot :: slots, t'')

/-- Rewrite one mesh's lightmap UVs into its atlas slot:
`uv * uvScale + uvOffset` with `uvOffset = (X, Y)/atlasSize` and
`uvScale = (W − padding, H − padding)/atlasSize`. -/
def transformMeshUVs (atlasSize pad : ℚ) (m : MeshData) (s : SlotRect) : MeshData :=
  { m with lightmapUVs := m.lightmapUVs.map (fun uv =>
      (uv.1 * ((s.w - pad) / atlasSize) + s.x / atlasSize,
       uv.2 * ((s.h - pad) / atlasSize) + s.y / atlasSize)) }

/-- Result of the lightmap repacking: the (possibly rewritten) model, the
atlas sizes attempted in order, and whether a packing attempt succeeded. -/
structure RepackOut where
  data : ModelData
  sizesTried : List ℚ
  success : Bool
  deriving DecidableEq, Repr

/-- The `while (triesLeft--)` loop of `RepackMeshLightmapUVs`: try to pack
all entries at the current atlas size; on failure multiply the size by 1.5
and retry, touching no UVs; on success rewrite LOD-0's mesh UVs. -/
def repackGo (data : ModelData) (lod0 : LOD) (rest : List LOD)
    (entrySizes : List ℚ) : Nat → ℚ → RepackOut
  | 0, _ => ⟨data, [], false⟩
  | Nat.succ n, a =>
    let pad := (4 / 256) * a
    let root : PackNode := .leaf pad pad (a - pad) (a - pad) false
    match insertAll root entrySizes pad with
    | some (slots, _) =>
      ⟨{ data with lods :=
          { lod0 with meshes :=
            List.zipWith (transformMeshUVs a pad) lod0.meshes slots } :: rest },
        [a], true⟩
    | none =>
      let r := repackGo data lod0 rest entrySizes n (a * (3 / 2))
      ⟨r.data, a :: r.sizesTried, r.success⟩

/-- `RepackMeshLightmapUVs`: compute per-mesh areas and proxy sizes via the
external square root `sqrtQ`; skip when the total area is within the zero
tolerance, otherwise run up to 10 packing attempts starting from
`sqrt(totalArea) * 1.02`. -/
def repackMeshLightmapUVs (sqrtQ : ℚ → ℚ) (data : ModelData) : RepackOut :=
  match data.lods with
  | [] => ⟨data, [], false⟩
  | lod0 :: rest =>
    let areaSum := (lod0.meshes.map (fun m => m.area)).sum
    if areaSum > zeroTolerance then
      repackGo data lod0 rest (lod0.meshes.map (fun m => sqrtQ m.area)) 10
        (sqrtQ areaSum * (102 / 100))
    else ⟨data, [], false⟩

/-- Total LOD-0 triangle area of a model. -/
def totalArea (data : ModelData) : ℚ :=
  match data.lods with
  | [] => 0
  | lod0 :: _ => (lod0.meshes.map (fun m => m.area)).sum

/-- The model produced by a successful packing attempt at atlas size `a'`:
LOD-0 meshes rewritten into their slots, everything else untouched. -/
def repackSuccessData (data : ModelData) (lod0 : LOD) (rest : List LOD)
    (a' : ℚ) (slots : List SlotRect) : ModelData :=
  { data with lods :=
      { lod0 with meshes :=
          List.zipWith (transformMeshUVs a' ((4 / 256) * a')) lod0.meshes slots } :: rest }

theorem repackGo_spec (data : ModelData) (lod0 : LOD) (rest : List LOD)
    (entrySizes : List ℚ) :
    ∀ (n : Nat) (a : ℚ),
    (repackGo data lod0 rest entrySizes n a).sizesTried.length ≤ n ∧
    ((repackGo data lod0 rest entrySizes n a).success = false →
      (repackGo data lod0 rest entrySizes n a).data = data) ∧
    (∀ i, i < (repackGo data lod0 rest entrySizes n a).sizesTried.length →
      (repackGo data lod0 rest entrySizes n a).sizesTried.getD i 0 = a * (3 / 2) ^ i) ∧
    ((repackGo data lod0 rest entrySizes n a).success = true →
      ∃ a' slots t, a' ∈ (repackGo data lod0 rest entrySizes n a).sizesTried ∧
        insertAll (.leaf ((4 / 256) * a') ((4 / 256) * a')
          (a' - (4 / 256) * a') (a' - (4 / 256) * a') false) entrySizes
          ((4 / 256) * a') = some (slots, t) ∧
        (repackGo data lod0 rest entrySizes n a).data =
          repackSuccessData data lod0 rest a' slots) := by
  intro n
  induction n with
  | zero =>
    intro a
    refine ⟨Nat.le_refl 0, fun _ => rfl, ?_, ?_⟩
    · intro i hi
      simp [repackGo] at hi
    · intro hc
      simp [repackGo] at hc
  | succ n ih =>
    intro a
    cases hins : insertAll (.leaf ((4 / 256) * a) ((4 / 256) * a)
        (a - (4 / 256) * a) (a - (4 / 256) * a) false) entrySizes ((4 / 256) * a) with
    | some st =>
      obtain ⟨slots, t⟩ := st
      refine ⟨?_, ?_, ?_, ?_⟩
      · simp [repackGo, hins]
      · intro hc
        simp [repackGo, hins] at hc
      · intro i hi
        simp only [repackGo, hins, List.length_singleton] at hi
        simp only [repackGo, hins]
        cases i with
        | zero => simp
        | succ j => omega
      · intro _
        refine ⟨a, slots, t, ?_, hins, ?_⟩
        · simp [repackGo, hins]
        · simp [repackGo, hins, repackSuccessData]
    | none =>
      obtain ⟨ih1, ih2, ih3, ih4⟩ := ih (a * (3 / 2))
      refine ⟨?_, ?_, ?_, ?_⟩
      · simp only [repackGo, hins, List.length_cons]
        omega
      · intro hc
        simp only [repackGo, hins] at hc ⊢
        exact ih2 hc
      · intro i hi
        simp only [repackGo, hins, List.length_cons] at hi ⊢
        cases i with
        | zero => simp
        | succ j =>
          rw [List.getD_cons_succ, ih3 j (by omega)]
          ring
      · intro hc
        simp only [repackGo, hins] at hc ⊢
        obtain ⟨a', slots, t, hmem, hin, hdat⟩ := ih4 hc
        exact ⟨a', slots, t, List.mem_cons_of_mem _ hmem, hin, hdat⟩

/-- C5: with positive total triangle area the packing loop attempts at most
10 atlas sizes; attempt `i` uses the initial size times `1.5^i` (so the size
is multiplied by 1.5 after each failed attempt); if no attempt succeeds, the
model (in particular every lightmap UV) is returned exactly as it came in,
and a successful run rewrites LOD-0's UVs in one step from the original
meshes — no failed attempt leaves a partial modification. -/
theorem repackMeshLightmapUVs_bounded (sqrtQ : ℚ → ℚ) (data : ModelData)
    (hpos : 0 < totalArea data) :
    (repackMeshLightmapUVs sqrtQ data).sizesTried.length ≤ 10 ∧
    ((repackMeshLightmapUVs sqrtQ data).success = false →
      (repackMeshLightmapUVs sqrtQ data).data = data) ∧
    (∀ i, i < (repackMeshLightmapUVs sqrtQ data).sizesTried.length →
      (repackMeshLightmapUVs sqrtQ data).sizesTried.getD i 0 =
        (sqrtQ (totalArea data) * (102 / 100)) * (3 / 2) ^ i) ∧
    ((repackMeshLightmapUVs sqrtQ data).success = true →
      ∃ lod0 rest, data.lods = lod0 :: rest ∧
        ∃ a' slots t, a' ∈ (repackMeshLightmapUVs sqrtQ data).sizesTried ∧
          insertAll (.leaf ((4 / 256) * a') ((4 / 256) * a')
            (a' - (4 / 256) * a') (a' - (4 / 256) * a') false)
            (lod0.meshes.map (fun m => sqrtQ m.area)) ((4 / 256) * a') =
              some (slots, t) ∧
          (repackMeshLightmapUVs sqrtQ data).data =
            repackSuccessData data lod0 rest a' slots) := by
  cases hld : data.lods with
  | nil =>
    have hr : repackMeshLightmapUVs sqrtQ data = ⟨data, [], false⟩ := by
      simp [repackMeshLightmapUVs, hld]
    rw [hr]
    refine ⟨by simp, fun _ => rfl, ?_, ?_⟩
    · intro i hi
      simp at hi
    · intro hc
      simp at hc
  | cons lod0 rest =>
    by_cases hgt : (lod0.meshes.map (fun m => m.area)).sum > zeroTolerance
    · have hr : repackMeshLightmapUVs sqrtQ data =
          repackGo data lod0 rest (lod0.meshes.map (fun m => sqrtQ m.area)) 10
            (sqrtQ ((lod0.meshes.map (fun m => m.area)).sum) * (102 / 100)) := by
        simp [repackMeshLightmapUVs, hld, hgt]
      have hta : totalArea data = (lod0.meshes.map (fun m => m.area)).sum := by
        simp [totalArea, hld]
      obtain ⟨h1, h2, h3, h4⟩ := repackGo_spec data lod0 rest
        (lod0.meshes.map (fun m => sqrtQ m.area)) 10
        (sqrtQ ((lod0.meshes.map (fun m => m.area)).sum) * (102 / 100))
      rw [hr, hta]
      exact ⟨h1, h2, h3, fun hc => ⟨lod0, rest, rfl, h4 hc⟩⟩
    · have hr : repackMeshLightmapUVs sqrtQ data = ⟨data, [], false⟩ := by
        simp [repackMeshLightmapUVs, hld, hgt]
      rw [hr]
      refine ⟨by simp, fun _ => rfl, ?_, ?_⟩
      · intro i hi
        simp at hi
      · intro hc
        simp at hc

/-- C8: when the total computed LOD-0 triangle area is not above the zero
tolerance, the repacking performs no packing attempt and returns the model
(all lightmap UVs included) unchanged. -/
theorem repackMeshLightmapUVs_skip (sqrtQ : ℚ → ℚ) (data : ModelData)
    (h : totalArea data ≤ zeroTolerance) :
    repackMeshLightmapUVs sqrtQ data = ⟨data, [], false⟩ := by
  cases hld : data.lods with
  | nil => simp [repackMeshLightmapUVs, hld]
  | cons lod0 rest =>
    have hta : totalArea data = (lod0.meshes.map (fun m => m.area)).sum := by
      simp [totalArea, hld]
    rw [hta] at h
    simp [repackMeshLightmapUVs, hld, not_lt.mpr h]

/-- Concrete two-mesh model with positive area for the C5 witness. -/
def c5Data : ModelData :=
  ⟨[⟨1, [⟨[65], 0, [(0, 0), (1, 1)], 1⟩, ⟨[66], 0, [(0, 1)], 1⟩]⟩], [], 0, [], []⟩

/-- Witness for C5: the positive-area hypothesis holds on a concrete model
and the bound theorem applies there. -/
theorem repackMeshLightmapUVs_bounded_witness :
    0 < totalArea c5Data ∧
    (repackMeshLightmapUVs (fun q => q) c5Data).sizesTried.length ≤ 10 :=
  ⟨by norm_num [totalArea, c5Data],
    (repackMeshLightmapUVs_bounded (fun q => q) c5Data
      (by norm_num [totalArea, c5Data])).1⟩

/-- Concrete zero-area model for the C8 witness. -/
def c8Data : ModelData :=
  ⟨[⟨1, [⟨[65], 0, [(0, 0)], 0⟩, ⟨[66], 0, [(1, 0)], 0⟩]⟩], [], 0, [], []⟩

/-- Witness for C8: the zero-area hypothesis holds on a concrete model and
the skip theorem applies there. -/
theorem repackMeshLightmapUVs_skip_witness :
    totalArea c8Data ≤ zeroTolerance ∧
    repackMeshLightmapUVs (fun q => q) c8Data = ⟨c8Data, [], false⟩ :=
  ⟨by norm_num [totalArea, c8Data, zeroTolerance],
    repackMeshLightmapUVs_skip (fun q => q) c8Data
      (by norm_num [totalArea, c8Data, zeroTolerance])⟩

/-- Result codes of asset creation (`CreateAssetResult`), restricted to the
values this file produces. -/
inductive CreateAssetResult where
  | ok
  | error
  | cannotAllocateChunk
  | invalidTypeID
  deriving DecidableEq, Repr

/-- Pack one LOD's meshes back to back into one buffer
(`Pack2Model`/`Pack2SkinnedModel` loop over a shared stream); `none` when any
mesh fails to pack. -/
def packMeshes (pm : MeshData → Option (List Nat)) (meshes : List MeshData) :
    Option (List Nat) :=
  (meshes.mapM pm).map List.flatten

/-- The per-LOD chunk loop shared by `CreateModel` and `CreateSkinnedModel`:
for the LOD at chunk index `k` pack its meshes (`Error` on failure), allocate
chunk `k` (`CannotAllocateChunk` on failure) and write the buffer, prefixed
with the mesh-data version byte `1` when `versionByte` is set (SkinnedModel
only); chunks allocated before a failure stay written. -/
def writeLods (pm : MeshData → Option (List Nat)) (alloc : Nat → Bool)
    (versionByte : Bool) : Nat → List LOD →
    CreateAssetResult × List (Nat × List Nat)
  | _, [] => (.ok, [])
  | k, lod :: rest =>
    match packMeshes pm lod.meshes with
    | none => (.error, [])
    | some bytes =>
      if alloc k then (.cannotAllocateChunk, [])
      else
        let r := writeLods pm alloc versionByte (k + 1) rest
        (r.1, (k, if versionByte then 1 :: bytes else bytes) :: r.2)

/-- `ImportModel::CreateModel`: write the packed header into chunk 0, each
LOD's packed meshes into chunk `lodIndex + 1`, and (optionally, on request
and successful generation) the SDF into chunk 15. `hdr` embeds the external
`ModelData::Pack2ModelHeader`, `pm` embeds `MeshData::Pack2Model`, `alloc`
embeds `CreateAssetContext::AllocateChunk` failure, `opts` the optional
`GenerateSDF` flag of the options pointer, and `sdfGen` the stream produced
by `ModelTool::GenerateModelSDF` when generation succeeds. -/
def createModel (hdr : ModelData → Option (List Nat))
    (pm : MeshData → Option (List Nat)) (alloc : Nat → Bool)
    (sdfGen : Option (List Nat)) (opts : Option Bool) (data : ModelData) :
    CreateAssetResult × List (Nat × List Nat) :=
  match hdr data with
  | none => (.error, [])
  | some h =>
    if alloc 0 then (.cannotAllocateChunk, [])
    else
      let r := writeLods pm alloc false 1 data.lods
      if r.1 ≠ .ok then (r.1, (0, h) :: r.2)
      else
        match opts with
        | some true =>
          match sdfGen with
          | some sb =>
            if alloc 15 then (.cannotAllocateChunk, (0, h) :: r.2)
            else (.ok, ((0, h) :: r.2) ++ [(15, sb)])
          | none => (.ok, (0, h) :: r.2)
        | _ => (.ok, (0, h) :: r.2)

/-- `ImportModel::CreateSkinnedModel`: write the packed header into chunk 0
and each LOD's packed meshes, prefixed by the mesh-data version byte `1`,
into chunk `lodIndex + 1`. -/
def createSkinnedModel (hdr : ModelData → Option (List Nat))
    (pm : MeshData → Option (List Nat)) (alloc : Nat → Bool)
    (data : ModelData) : CreateAssetResult × List (Nat × List Nat) :=
  match hdr data with
  | none => (.error, [])
  | some h =>
    if alloc 0 then (.cannotAllocateChunk, [])
    else
      let r := writeLods pm alloc true 1 data.lods
      if r.1 ≠ .ok then (r.1, (0, h) :: r.2)
      else (.ok, (0, h) :: r.2)

/-- `ImportModel::CreateAnimation`: pack the selected animation's data
(`objectIndex` when set, else 0) into chunk 0. `packAnim` embeds the external
`ModelData::Pack2AnimationHeader`. -/
def createAnimation (packAnim : ModelData → Int → Option (List Nat))
    (alloc : Nat → Bool) (objectIndex : Option Int) (data : ModelData) :
    CreateAssetResult × List (Nat × List Nat) :=
  let animIndex : Int := match objectIndex with
    | some i => if i ≠ -1 then i else 0
    | none => 0
  match packAnim data animIndex with
  | none => (.error, [])
  | some h =>
    if alloc 0 then (.cannotAllocateChunk, [])
    else (.ok, [(0, h)])

/-- `ImportModel::Create`: reject models with no LODs or an empty LOD-0 mesh
list before anything is written; otherwise recompute LOD screen sizes
(external `CalculateLODsScreenSizes`, embedded as `calcScreenSizes`) and
defer to `CreateModel` with no options. -/
def createAsset (hdr : ModelData → Option (List Nat))
    (pm : MeshData → Option (List Nat)) (alloc : Nat → Bool)
    (calcScreenSizes : ModelData → ModelData) (data : ModelData) :
    CreateAssetResult × List (Nat × List Nat) :=
  match data.lods with
  | [] => (.error, [])
  | lod0 :: _ =>
    if lod0.meshes.isEmpty then (.error, [])
    else createModel hdr pm alloc none none (calcScreenSizes data)

theorem writeLods_ok_chunks (pm : MeshData → Option (List Nat))
    (alloc : Nat → Bool) (vb : Bool) :
    ∀ (lods : List LOD) (k0 : Nat),
    (writeLods pm alloc vb k0 lods).1 = .ok →
    ∀ j, j < lods.length →
      ∃ b, packMeshes pm ((lods.getD j dfltLOD).meshes) = some b ∧
        (k0 + j, if vb then 1 :: b else b) ∈ (writeLods pm alloc vb k0 lods).2 := by
  intro lods
  induction lods with
  | nil => intro k0 _ j hj; simp at hj
  | cons lod rest ih =>
    intro k0 hok j hj
    cases hp : packMeshes pm lod.meshes with
    | none => simp [writeLods, hp] at hok
    | some bytes =>
      cases ha : alloc k0 with
      | true => simp [writeLods, hp, ha] at hok
      | false =>
        have hok' : (writeLods pm alloc vb (k0 + 1) rest).1 = .ok := by
          simpa [writeLods, hp, ha] using hok
        have hch : (writeLods pm alloc vb k0 (lod :: rest)).2 =
            (k0, if vb then 1 :: bytes else bytes) ::
              (writeLods pm alloc vb (k0 + 1) rest).2 := by
          simp [writeLods, hp, ha]
        cases j with
        | zero =>
          refine ⟨bytes, by simpa using hp, ?_⟩
          rw [hch]
          simpa using List.mem_cons_self _ _
        | succ j' =>
          obtain ⟨b, hb, hmem⟩ := ih (k0 + 1) hok' j' (by simpa using hj)
          refine ⟨b, by simpa using hb, ?_⟩
          rw [hch]
          have heq : k0 + (j' + 1) = k0 + 1 + j' := by omega
          rw [heq]
          exact List.mem_cons_of_mem _ hmem

theorem writeLods_alloc_fail (pm : MeshData → Option (List Nat))
    (alloc : Nat → Bool) (vb : Bool) :
    ∀ (lods : List LOD) (k0 : Nat),
    (∀ lod ∈ lods, ∃ b, packMeshes pm lod.meshes = some b) →
    (∃ j, j < lods.length ∧ alloc (k0 + j) = true) →
    (writeLods pm alloc vb k0 lods).1 = .cannotAllocateChunk := by
  intro lods
  induction lods with
  | nil => intro k0 _ hex; obtain ⟨j, hj, _⟩ := hex; simp at hj
  | cons lod rest ih =>
    intro k0 hpack hex
    obtain ⟨bytes, hp⟩ := hpack lod (List.mem_cons_self _ _)
    cases ha : alloc k0 with
    | true => simp [writeLods, hp, ha]
    | false =>
      obtain ⟨j, hj, hja⟩ := hex
      cases j with
      | zero => rw [Nat.add_zero] at hja; rw [hja] at ha; cases ha
      | succ j' =>
        have hrec : (writeLods pm alloc vb (k0 + 1) rest).1 = .cannotAllocateChunk := by
          refine ih (k0 + 1) (fun l hl => hpack l (List.mem_cons_of_mem _ hl)) ⟨j', ?_, ?_⟩
          · simpa using hj
          · have heq : k0 + 1 + j' = k0 + (j' + 1) := by omega
            rw [heq]
            exact hja
        simp [writeLods, hp, ha, hrec]

theorem createModel_ok_layout (hdr : ModelData → Option (List Nat))
    (pm : MeshData → Option (List Nat)) (alloc : Nat → Bool)
    (sdfGen : Option (List Nat)) (opts : Option Bool) (data : ModelData)
    (hok : (createModel hdr pm alloc sdfGen opts data).1 = .ok) :
    ∃ h, hdr data = some h ∧
      (0, h) ∈ (createModel hdr pm alloc sdfGen opts data).2 ∧
      ∀ k, k < data.lods.length →
        ∃ b, packMeshes pm ((data.lods.getD k dfltLOD).meshes) = some b ∧
          (k + 1, b) ∈ (createModel hdr pm alloc sdfGen opts data).2 := by
  cases hh : hdr data with
  | none => simp [createModel, hh] at hok
  | some h =>
    cases ha : alloc 0 with
    | true => simp [createModel, hh, ha] at hok
    | false =>
      by_cases hro : (writeLods pm alloc false 1 data.lods).1 = .ok
      · have hchunks : ∃ tail, (createModel hdr pm alloc sdfGen opts data).2 =
            ((0, h) :: (writeLods pm alloc false 1 data.lods).2) ++ tail := by
          cases opts with
          | none => exact ⟨[], by simp [createModel, hh, ha, hro]⟩
          | some b =>
            cases b with
            | false => exact ⟨[], by simp [createModel, hh, ha, hro]⟩
            | true =>
              cases hsdf : sdfGen with
              | none => exact ⟨[], by simp [createModel, hh, ha, hro, hsdf]⟩
              | some sb =>
                cases h15 : alloc 15 with
                | true => exact ⟨[], by simp [createModel, hh, ha, hro, hsdf, h15]⟩
                | false => exact ⟨[(15, sb)], by simp [createModel, hh, ha, hro, hsdf, h15]⟩
        obtain ⟨tail, htail⟩ := hchunks
        refine ⟨h, rfl, ?_, ?_⟩
        · rw [htail]
          exact List.mem_append_left _ (List.mem_cons_self _ _)
        · intro k hk
          obtain ⟨b, hb, hmem⟩ := writeLods_ok_chunks pm alloc false data.lods 1 hro k hk
          refine ⟨b, hb, ?_⟩
          rw [htail]
          refine List.mem_append_left _ (List.mem_cons_of_mem _ ?_)
          have heq : k + 1 = 1 + k := by omega
          rw [heq]
          simpa using hmem
      · have hres : (createModel hdr pm alloc sdfGen opts data).1 =
            (writeLods pm alloc false 1 data.lods).1 := by
          simp [createModel, hh, ha, hro]
        rw [hres] at hok
        exact absurd hok hro

theorem createSkinnedModel_ok_layout (hdr : ModelData → Option (List Nat))
    (pm : MeshData → Option (List Nat)) (alloc : Nat → Bool) (data : ModelData)
    (hok : (createSkinnedModel hdr pm alloc data).1 = .ok) :
    ∃ h, hdr data = some h ∧
      (0, h) ∈ (createSkinnedModel hdr pm alloc data).2 ∧
      ∀ k, k < data.lods.length →
        ∃ b, packMeshes pm ((data.lods.getD k dfltLOD).meshes) = some b ∧
          (k + 1, 1 :: b) ∈ (createSkinnedModel hdr pm alloc data).2 := by
  cases hh : hdr data with
  | none => simp [createSkinnedModel, hh] at hok
  | some h =>
    cases ha : alloc 0 with
    | true => simp [createSkinnedModel, hh, ha] at hok
    | false =>
      by_cases hro : (writeLods pm alloc true 1 data.lods).1 = .ok
      · have htail : (createSkinnedModel hdr pm alloc data).2 =
            (0, h) :: (writeLods pm alloc true 1 data.lods).2 := by
          simp [createSkinnedModel, hh, ha, hro]
        refine ⟨h, rfl, ?_, ?_⟩
        · rw [htail]
          exact List.mem_cons_self _ _
        · intro k hk
          obtain ⟨b, hb, hmem⟩ := writeLods_ok_chunks pm alloc true data.lods 1 hro k hk
          refine ⟨b, hb, ?_⟩
          rw [htail]
          refine List.mem_cons_of_mem _ ?_
          have heq : k + 1 = 1 + k := by omega
          rw [heq]
          simpa using hmem
      · have hres : (createSkinnedModel hdr pm alloc data).1 =
            (writeLods pm alloc true 1 data.lods).1 := by
          simp [createSkinnedModel, hh, ha, hro]
        rw [hres] at hok
        exact absurd hok hro

theorem createModel_alloc_fail (hdr : ModelData → Option (List Nat))
    (pm : MeshData → Option (List Nat)) (alloc : Nat → Bool)
    (sdfGen : Option (List Nat)) (opts : Option Bool) (data : ModelData)
    (h : List Nat) (hh : hdr data = some h) :
    (alloc 0 = true → (createModel hdr pm alloc sdfGen opts data).1 = .cannotAllocateChunk) ∧
    (alloc 0 = false →
      (∀ lod ∈ data.lods, ∃ b, packMeshes pm lod.meshes = some b) →
      (∃ k, k < data.lods.length ∧ alloc (k + 1) = true) →
      (createModel hdr pm alloc sdfGen opts data).1 = .cannotAllocateChunk) := by
  constructor
  · intro ha
    simp [createModel, hh, ha]
  · intro ha hpack hex
    obtain ⟨k, hk, hka⟩ := hex
    have hw : (writeLods pm alloc false 1 data.lods).1 = .cannotAllocateChunk := by
      refine writeLods_alloc_fail pm alloc false data.lods 1 hpack ⟨k, hk, ?_⟩
      have heq : 1 + k = k + 1 := by omega
      rw [heq]
      exact hka
    have hro : ¬ (writeLods pm alloc false 1 data.lods).1 = CreateAssetResult.ok := by
      rw [hw]
      intro hc
      cases hc
    simp [createModel, hh, ha, hro, hw]

theorem createSkinnedModel_alloc_fail (hdr : ModelData → Option (List Nat))
    (pm : MeshData → Option (List Nat)) (alloc : Nat → Bool) (data : ModelData)
    (h : List Nat) (hh : hdr data = some h) :
    (alloc 0 = true → (createSkinnedModel hdr pm alloc data).1 = .cannotAllocateChunk) ∧
    (alloc 0 = false →
      (∀ lod ∈ data.lods, ∃ b, packMeshes pm lod.meshes = some b) →
      (∃ k, k < data.lods.length ∧ alloc (k + 1) = true) →
      (createSkinnedModel hdr pm alloc data).1 = .cannotAllocateChunk) := by
  constructor
  · intro ha
    simp [createSkinnedModel, hh, ha]
  · intro ha hpack hex
    obtain ⟨k, hk, hka⟩ := hex
    have hw : (writeLods pm alloc true 1 data.lods).1 = .cannotAllocateChunk := by
      refine writeLods_alloc_fail pm alloc true data.lods 1 hpack ⟨k, hk, ?_⟩
      have heq : 1 + k = k + 1 := by omega
      rw [heq]
      exact hka
    have hro : ¬ (writeLods pm alloc true 1 data.lods).1 = CreateAssetResult.ok := by
      rw [hw]
      intro hc
      cases hc
    simp [createSkinnedModel, hh, ha, hro, hw]

/-- C7: for Model and SkinnedModel serialization the header goes to chunk 0
and LOD `k`'s packed mesh buffer to chunk `k+1` (prefixed with the mesh-data
version byte `1` for SkinnedModel only), and a chunk-allocation failure at
the header chunk or at any reached LOD chunk yields `CannotAllocateChunk`. -/
theorem chunkSerialization_layout (hdr : ModelData → Option (List Nat))
    (pm : MeshData → Option (List Nat)) (alloc : Nat → Bool)
    (sdfGen : Option (List Nat)) (opts : Option Bool) (data : ModelData) :
    ((createModel hdr pm alloc sdfGen opts data).1 = .ok →
      ∃ h, hdr data = some h ∧
        (0, h) ∈ (createModel hdr pm alloc sdfGen opts data).2 ∧
        ∀ k, k < data.lods.length →
          ∃ b, packMeshes pm ((data.lods.getD k dfltLOD).meshes) = some b ∧
            (k + 1, b) ∈ (createModel hdr pm alloc sdfGen opts data).2) ∧
    ((createSkinnedModel hdr pm alloc data).1 = .ok →
      ∃ h, hdr data = some h ∧
        (0, h) ∈ (createSkinnedModel hdr pm alloc data).2 ∧
        ∀ k, k < data.lods.length →
          ∃ b, packMeshes pm ((data.lods.getD k dfltLOD).meshes) = some b ∧
            (k + 1, 1 :: b) ∈ (createSkinnedModel hdr pm alloc data).2) ∧
    (∀ h, hdr data = some h → alloc 0 = true →
      (createModel hdr pm alloc sdfGen opts data).1 = .cannotAllocateChunk ∧
      (createSkinnedModel hdr pm alloc data).1 = .cannotAllocateChunk) ∧
    (∀ h, hdr data = some h → alloc 0 = false →
      (∀ lod ∈ data.lods, ∃ b, packMeshes pm lod.meshes = some b) →
      (∃ k, k < data.lods.length ∧ alloc (k + 1) = true) →
      (createModel hdr pm alloc sdfGen opts data).1 = .cannotAllocateChunk ∧
      (createSkinnedModel hdr pm alloc data).1 = .cannotAllocateChunk) := by
  refine ⟨?_, ?_, ?_, ?_⟩
  · exact createModel_ok_layout hdr pm alloc sdfGen opts data
  · exact createSkinnedModel_ok_layout hdr pm alloc data
  · intro h hh ha
    exact ⟨(createModel_alloc_fail hdr pm alloc sdfGen opts data h hh).1 ha,
      (createSkinnedModel_alloc_fail hdr pm alloc data h hh).1 ha⟩
  · intro h hh ha hpack hex
    exact ⟨(createModel_alloc_fail hdr pm alloc sdfGen opts data h hh).2 ha hpack hex,
      (createSkinnedModel_alloc_fail hdr pm alloc data h hh).2 ha hpack hex⟩

/-- Concrete always-succeeding header packer. -/
def c7Hdr : ModelData → Option (List Nat) := fun _ => some [7]

/-- Concrete always-succeeding mesh packer. -/
def c7Pm : MeshData → Option (List Nat) := fun _ => some [1]

/-- Concrete always-failing chunk allocator. -/
def c7AllocFail : Nat → Bool := fun _ => true

/-- Concrete one-LOD model for the serializer witnesses. -/
def c7Data : ModelData := ⟨[⟨1, [dfltMesh]⟩], [], 0, [], []⟩

/-- Witness for C7: the serializer layout theorem applies at a concrete model
with a failing allocator, returning `CannotAllocateChunk` for both kinds. -/
theorem chunkSerialization_layout_witness :
    c7Hdr c7Data = some [7] ∧
    (createModel c7Hdr c7Pm c7AllocFail none none c7Data).1 = .cannotAllocateChunk ∧
    (createSkinnedModel c7Hdr c7Pm c7AllocFail c7Data).1 = .cannotAllocateChunk :=
  ⟨rfl, (chunkSerialization_layout c7Hdr c7Pm c7AllocFail none none c7Data).2.2.1
    [7] rfl rfl⟩

/-- C6: a model with no LODs, or with an empty LOD-0 mesh list, makes
`ImportModel::Create` return `Error` with no chunk allocated (the chunk list
of the result is empty). -/
theorem createAsset_empty_model (hdr : ModelData → Option (List Nat))
    (pm : MeshData → Option (List Nat)) (alloc : Nat → Bool)
    (calcScreenSizes : ModelData → ModelData) (data : ModelData)
    (h : data.lods = [] ∨ ∃ lod0 rest, data.lods = lod0 :: rest ∧ lod0.meshes = []) :
    createAsset hdr pm alloc calcScreenSizes data = (.error, []) := by
  rcases h with h | ⟨lod0, rest, hld, hm⟩
  · simp [createAsset, h]
  · have hie : lod0.meshes.isEmpty = true := by rw [hm]; rfl
    simp [createAsset, hld, hie]

/-- Concrete LOD-less model for the C6 witness. -/
def c6Data : ModelData := ⟨[], [], 0, [], []⟩

/-- Witness for C6: the empty-model rejection theorem applies at a concrete
model with no LODs. -/
theorem createAsset_empty_model_witness :
    (c6Data.lods = [] ∨ ∃ lod0 rest, c6Data.lods = lod0 :: rest ∧ lod0.meshes = []) ∧
    createAsset c7Hdr c7Pm c7AllocFail (fun d => d) c6Data = (.error, []) :=
  ⟨Or.inl rfl, createAsset_empty_model c7Hdr c7Pm c7AllocFail (fun d => d) c6Data (Or.inl rfl)⟩

/-- Model asset kind (`ModelTool::ModelType`). -/
inductive ModelType where
  | model
  | skinnedModel
  | animation
  deriving DecidableEq, Repr

/-- Lightmap UV source (`ModelLightmapUVsSource`). -/
inductive LightmapUVsSource where
  | disable
  | generate
  | channel0
  | channel1
  deriving DecidableEq, Repr

/-- Import options (`ImportModel::Options` a.k.a. `ModelTool::Options`),
restricted to the fields this translation unit reads; the runtime cached-data
pointer is carried separately by the pipeline. -/
structure Options where
  type : ModelType
  splitObjects : Bool
  objectIndex : Int
  restoreMaterialsOnReimport : Bool
  lightmapUVsSource : LightmapUVsSource
  generateSDF : Bool
  deriving DecidableEq, Repr

/-- One recursive orchestrator invocation issued by the split stage: the
options copy passed along, whether the cached parsed data reference was set,
and the output-name postfix derived from the object name. -/
structure SplitCall where
  opts : Options
  cachedProvided : Bool
  outputPostfix : List Nat
  deriving DecidableEq, Repr

/-- The options content that `options.Serialize` persists into the metadata
blob (the cached-data pointer is a runtime reference and is not serialized). -/
structure PersistedOptions where
  type : ModelType
  splitObjects : Bool
  objectIndex : Int
  restoreMaterialsOnReimport : Bool
  lightmapUVsSource : LightmapUVsSource
  generateSDF : Bool
  deriving DecidableEq, Repr

/-- Serialize options into the persisted metadata record. -/
def toPersisted (o : Options) : PersistedOptions :=
  ⟨o.type, o.splitObjects, o.objectIndex, o.restoreMaterialsOnReimport,
    o.lightmapUVsSource, o.generateSDF⟩

/-- Default group used for (hypothesis-guarded) list indexing. -/
def dfltGroup : Grouping := ⟨[], []⟩

/-- The portion of an object name after the last `|` (code point 124),
used to derive the sibling artifact's output file name. -/
def afterLastBar : List Nat → List Nat
  | [] => []
  | c :: rest => if 124 ∈ c :: rest then afterLastBar rest else c :: rest

/-- Destructive object selection (`&dataThis == data` branch): LOD 0 keeps
exactly the group's members, higher LODs keep only same-named meshes, and the
material table is rebuilt by `SetupMaterialSlots` from the original table. -/
def destructiveSelect (d : ModelData) (g : Grouping) : ModelData :=
  match d.lods with
  | [] => d
  | lod0 :: rest =>
    let lod0' : LOD := { lod0 with meshes := g.members }
    let rest' := rest.map (fun l =>
      { l with meshes := l.meshes.filter (fun m => decide (m.name = g.key)) })
    let r := setupMaterialSlots d.materials (lod0' :: rest')
    { d with lods := r.2, materials := r.1 }

/-- The transfer-mode LOD scan: from LOD 1 on keep the same-named meshes of
each LOD, stopping at the first LOD contributing none. -/
def collectTransferLods (key : List Nat) : List LOD → List LOD
  | [] => []
  | l :: ls =>
    let f := l.meshes.filter (fun m => decide (m.name = key))
    if f.isEmpty then []
    else { l with meshes := f } :: collectTransferLods key ls

/-- Transfer-mode object selection (cached shared data): build a fresh model
with the shared skeleton/nodes, the group as LOD 0 (screen size copied),
contiguous same-named higher LODs, and slots consolidated from the shared
material table. -/
def transferSelect (shared : ModelData) (g : Grouping) : ModelData :=
  let lod0 : LOD := ⟨(shared.lods.getD 0 dfltLOD).screenSize, g.members⟩
  let restLods := collectTransferLods g.key (shared.lods.drop 1)
  let r := setupMaterialSlots shared.materials (lod0 :: restLods)
  ⟨r.2, r.1, shared.skeleton, shared.nodes, []⟩

/-- The object-selection stage (`ImportModel::Import`, the
`options.ObjectIndex >= 0 && ... < meshesByName.Count() && type ∈
{Model, SkinnedModel}` guard): select the indexed group destructively or by
transfer; otherwise pass the model through untouched. -/
def selectStage (fromCache : Bool) (groups : List Grouping) (opts : Options)
    (d : ModelData) : ModelData :=
  if 0 ≤ opts.objectIndex ∧ opts.objectIndex < (groups.length : Int) ∧
      (opts.type = .model ∨ opts.type = .skinnedModel) then
    let g := groups.getD opts.objectIndex.toNat dfltGroup
    if fromCache then transferSelect d g else destructiveSelect d g
  else d

/-- Positional copy of `Name`, `ShadowsMode` and the material reference from
the previously built asset's slots (`TryRestoreMaterials` inner loop). -/
def restoreSlots : List MaterialSlotEntry → List MaterialSlotEntry →
    List MaterialSlotEntry
  | [], _ => []
  | c :: cs, [] => c :: cs
  | c :: cs, p :: ps =>
    { c with name := p.name, shadowsMode := p.shadowsMode, assetID := p.assetID } ::
      restoreSlots cs ps

/-- The material-restore stage: applies only when requested and slots exist;
`prevSlots = none` embeds every silent skip (missing file, load failure,
wrong asset type). -/
def restoreStage (opts : Options) (prevSlots : Option (List MaterialSlotEntry))
    (d : ModelData) : ModelData :=
  if opts.restoreMaterialsOnReimport ∧ d.materials ≠ [] then
    match prevSlots with
    | some prev => { d with materials := restoreSlots d.materials prev }
    | none => d
  else d

/-- The lightmap-UV stage guard: Model type, generated UVs, a LOD present and
more than one LOD-0 mesh. -/
def repackStage (sqrtQ : ℚ → ℚ) (opts : Options) (d : ModelData) : ModelData :=
  if opts.type = .model ∧ opts.lightmapUVsSource = .generate ∧
      d.lods ≠ [] ∧ 1 < (d.lods.getD 0 dfltLOD).meshes.length then
    (repackMeshLightmapUVs sqrtQ d).data
  else d

/-- The split stage (`if (options.SplitObjects)`): force the local options to
`splitObjects = false, objectIndex = 0`, and record one orchestrator call per
remaining group (or animation) index `i ≥ 1`, each carrying
`splitObjects = false, objectIndex = i` and the cached parsed data. -/
def splitStage (opts : Options) (groups : List Grouping)
    (anims : List (List Nat)) : Options × List SplitCall :=
  if opts.splitObjects then
    let o := { opts with splitObjects := false, objectIndex := 0 }
    let calls : List SplitCall := match o.type with
      | .model | .skinnedModel =>
        ((List.range groups.length).drop 1).map (fun i =>
          ⟨{ o with objectIndex := Int.ofNat i }, true,
            afterLastBar ((groups.getD i dfltGroup).key)⟩)
      | .animation =>
        ((List.range anims.length).drop 1).map (fun i =>
          ⟨{ o with objectIndex := Int.ofNat i }, true,
            afterLastBar (anims.getD i [])⟩)
    (o, calls)
  else (opts, [])

/-- Observable outcome of one `ImportModel::Import` run. -/
structure PipelineOut where
  result : CreateAssetResult
  chunks : List (Nat × List Nat)
  calls : List SplitCall
  effectiveOptions : Options
  groups : List Grouping
  selectedData : ModelData
  serializedData : ModelData
  persisted : Option PersistedOptions
  deriving DecidableEq, Repr

/-- `ImportModel::Import` for an already-parsed model (the `CustomArg`
options path; the parse step is the external `ModelTool::ImportModel`):
group LOD-0 meshes by name and sort (unless cached groups are supplied),
run the split fan-out, object selection, material restore, lightmap repack,
and serialization, then persist the serialized options on success. -/
def importPipeline (hdrM : ModelData → Option (List Nat))
    (pmM : MeshData → Option (List Nat))
    (hdrS : ModelData → Option (List Nat))
    (pmS : MeshData → Option (List Nat))
    (packAnim : ModelData → Int → Option (List Nat))
    (alloc : Nat → Bool) (sdfGen : Option (List Nat)) (sqrtQ : ℚ → ℚ)
    (prevSlots : Option (List MaterialSlotEntry))
    (optionsIn : Options) (parsed : ModelData)
    (cachedIn : Option (ModelData × List Grouping)) : PipelineOut :=
  let fromCache := cachedIn.isSome
  let data0 := match cachedIn with
    | some (d, _) => d
    | none => parsed
  let groups := match cachedIn with
    | some (_, g) => g
    | none => match parsed.lods with
      | [] => []
      | lod0 :: _ => sortGroups (groupBy lod0.meshes)
  let sc := splitStage optionsIn groups data0.animations
  let data1 := selectStage fromCache groups sc.1 data0
  let data2 := restoreStage sc.1 prevSlots data1
  let data3 := repackStage sqrtQ sc.1 data2
  let cr := match sc.1.type with
    | .model => createModel hdrM pmM alloc sdfGen (some sc.1.generateSDF) data3
    | .skinnedModel => createSkinnedModel hdrS pmS alloc data3
    | .animation => createAnimation packAnim alloc (some sc.1.objectIndex) data3
  { result := cr.1, chunks := cr.2, calls := sc.2, effectiveOptions := sc.1,
    groups := groups, selectedData := data1, serializedData := data3,
    persisted := if cr.1 = .ok then some (toPersisted sc.1) else none }

/-- The options as they stand when serialization is reached: the split stage
forces `splitObjects = false, objectIndex = 0`; otherwise unchanged. -/
def effectiveOptions (o : Options) : Options :=
  if o.splitObjects then { o with splitObjects := false, objectIndex := 0 } else o

theorem splitStage_fst (o : Options) (groups : List Grouping)
    (anims : List (List Nat)) : (splitStage o groups anims).1 = effectiveOptions o := by
  cases h : o.splitObjects <;> simp [splitStage, effectiveOptions, h]

/-- C2 (amended): on every `Ok` import the persisted metadata encodes the
options as held at serialization time — identical to the caller's options
when `splitObjects = false`, but with `splitObjects = false` and
`objectIndex = 0` persisted when the caller passed `splitObjects = true`
(cache references are never part of the persisted record). -/
theorem metadataPersistence (hdrM : ModelData → Option (List Nat))
    (pmM : MeshData → Option (List Nat))
    (hdrS : ModelData → Option (List Nat))
    (pmS : MeshData → Option (List Nat))
    (packAnim : ModelData → Int → Option (List Nat))
    (alloc : Nat → Bool) (sdfGen : Option (List Nat)) (sqrtQ : ℚ → ℚ)
    (prevSlots : Option (List MaterialSlotEntry))
    (optionsIn : Options) (parsed : ModelData)
    (cachedIn : Option (ModelData × List Grouping)) :
    ((importPipeline hdrM pmM hdrS pmS packAnim alloc sdfGen sqrtQ prevSlots
        optionsIn parsed cachedIn).result = .ok →
      (importPipeline hdrM pmM hdrS pmS packAnim alloc sdfGen sqrtQ prevSlots
        optionsIn parsed cachedIn).persisted =
        some (toPersisted (effectiveOptions optionsIn))) ∧
    (optionsIn.splitObjects = false → effectiveOptions optionsIn = optionsIn) := by
  constructor
  · intro hok
    have h1 : (importPipeline hdrM pmM hdrS pmS packAnim alloc sdfGen sqrtQ prevSlots
        optionsIn parsed cachedIn).persisted =
        (if (importPipeline hdrM pmM hdrS pmS packAnim alloc sdfGen sqrtQ prevSlots
          optionsIn parsed cachedIn).result = .ok then
            some (toPersisted (importPipeline hdrM pmM hdrS pmS packAnim alloc sdfGen
              sqrtQ prevSlots optionsIn parsed cachedIn).effectiveOptions)
          else none) := rfl
    rw [h1, if_pos hok]
    have h2 : (importPipeline hdrM pmM hdrS pmS packAnim alloc sdfGen sqrtQ prevSlots
        optionsIn parsed cachedIn).effectiveOptions = effectiveOptions optionsIn :=
      splitStage_fst optionsIn _ _
    rw [h2]
  · intro h
    simp [effectiveOptions, h]

/-- Caller options with `splitObjects = true` and `objectIndex = 7` for the
C2 counterexample. -/
def c2Options : Options := ⟨.model, true, 7, false, .disable, false⟩

/-- One-mesh parsed model for the C2/C9 counterexamples. -/
def c2Parsed : ModelData :=
  ⟨[⟨1, [⟨[65], 0, [], 0⟩]⟩], [⟨[77], 0, 0, 0⟩], 0, [], []⟩

/-- Counterexample to C2 as stated: a successful `splitObjects = true` import
persists `splitObjects = false, objectIndex = 0`, not the caller's values. -/
theorem metadataPersistence_counterexample :
    (importPipeline c7Hdr c7Pm c7Hdr c7Pm (fun _ _ => some []) (fun _ => false)
      none (fun q => q) none c2Options c2Parsed none).result = .ok ∧
    c2Options.splitObjects = true ∧ c2Options.objectIndex = 7 ∧
    (importPipeline c7Hdr c7Pm c7Hdr c7Pm (fun _ _ => some []) (fun _ => false)
      none (fun q => q) none c2Options c2Parsed none).persisted =
      some (toPersisted { c2Options with splitObjects := false, objectIndex := 0 }) ∧
    (importPipeline c7Hdr c7Pm c7Hdr c7Pm (fun _ _ => some []) (fun _ => false)
      none (fun q => q) none c2Options c2Parsed none).persisted ≠
      some (toPersisted c2Options) := by
  decide

/-- Witness for C2 (amended): a concrete `Ok` run on which the persistence
theorem applies. -/
theorem metadataPersistence_witness :
    (importPipeline c7Hdr c7Pm c7Hdr c7Pm (fun _ _ => some []) (fun _ => false)
      none (fun q => q) none c2Options c2Parsed none).result = .ok ∧
    (importPipeline c7Hdr c7Pm c7Hdr c7Pm (fun _ _ => some []) (fun _ => false)
      none (fun q => q) none c2Options c2Parsed none).persisted =
      some (toPersisted (effectiveOptions c2Options)) :=
  ⟨by decide, (metadataPersistence c7Hdr c7Pm c7Hdr c7Pm (fun _ _ => some [])
    (fun _ => false) none (fun q => q) none c2Options c2Parsed none).1 (by decide)⟩

/-- C4: with `splitObjects = true` and a Model/SkinnedModel type, the run
records exactly one orchestrator call per group index `i ∈ [1, N−1]`, each
carrying `splitObjects = false`, `objectIndex = i` and the cached parsed
data; the local options are forced to `splitObjects = false, objectIndex = 0`
so the first group is processed in the current artifact, selected
destructively when the data was parsed (not cached) in this call. -/
theorem splitFanOut (hdrM : ModelData → Option (List Nat))
    (pmM : MeshData → Option (List Nat))
    (hdrS : ModelData → Option (List Nat))
    (pmS : MeshData → Option (List Nat))
    (packAnim : ModelData → Int → Option (List Nat))
    (alloc : Nat → Bool) (sdfGen : Option (List Nat)) (sqrtQ : ℚ → ℚ)
    (prevSlots : Option (List MaterialSlotEntry))
    (optionsIn : Options) (parsed : ModelData)
    (cachedIn : Option (ModelData × List Grouping))
    (hsplit : optionsIn.splitObjects = true)
    (htype : optionsIn.type = .model ∨ optionsIn.type = .skinnedModel) :
    (importPipeline hdrM pmM hdrS pmS packAnim alloc sdfGen sqrtQ prevSlots
        optionsIn parsed cachedIn).calls =
      ((List.range (importPipeline hdrM pmM hdrS pmS packAnim alloc sdfGen sqrtQ
          prevSlots optionsIn parsed cachedIn).groups.length).drop 1).map (fun i =>
        ⟨{ optionsIn with splitObjects := false, objectIndex := Int.ofNat i }, true,
          afterLastBar (((importPipeline hdrM pmM hdrS pmS packAnim alloc sdfGen
            sqrtQ prevSlots optionsIn parsed cachedIn).groups.getD i
              dfltGroup).key)⟩) ∧
    (importPipeline hdrM pmM hdrS pmS packAnim alloc sdfGen sqrtQ prevSlots
        optionsIn parsed cachedIn).calls.length =
      (importPipeline hdrM pmM hdrS pmS packAnim alloc sdfGen sqrtQ prevSlots
        optionsIn parsed cachedIn).groups.length - 1 ∧
    (importPipeline hdrM pmM hdrS pmS packAnim alloc sdfGen sqrtQ prevSlots
        optionsIn parsed cachedIn).effectiveOptions =
      { optionsIn with splitObjects := false, objectIndex := 0 } ∧
    (cachedIn = none →
      1 ≤ (importPipeline hdrM pmM hdrS pmS packAnim alloc sdfGen sqrtQ prevSlots
        optionsIn parsed cachedIn).groups.length →
      (importPipeline hdrM pmM hdrS pmS packAnim alloc sdfGen sqrtQ prevSlots
          optionsIn parsed cachedIn).selectedData =
        destructiveSelect parsed
          ((importPipeline hdrM pmM hdrS pmS packAnim alloc sdfGen sqrtQ prevSlots
            optionsIn parsed cachedIn).groups.getD 0 dfltGroup)) := by
  have hcalls : ∀ (groups : List Grouping) (anims : List (List Nat)),
      (splitStage optionsIn groups anims).2 =
        ((List.range groups.length).drop 1).map (fun i =>
          ⟨{ optionsIn with splitObjects := false, objectIndex := Int.ofNat i }, true,
            afterLastBar ((groups.getD i dfltGroup).key)⟩) := by
    intro groups anims
    rcases htype with ht | ht <;>
      simp [splitStage, hsplit, ht]
  have heff : ∀ (groups : List Grouping) (anims : List (List Nat)),
      (splitStage optionsIn groups anims).1 =
        { optionsIn with splitObjects := false, objectIndex := 0 } := by
    intro groups anims
    simp [splitStage, hsplit]
  refine ⟨?_, ?_, ?_, ?_⟩
  · exact hcalls _ _
  · rw [show (importPipeline hdrM pmM hdrS pmS packAnim alloc sdfGen sqrtQ prevSlots
        optionsIn parsed cachedIn).calls = _ from hcalls _ _]
    simp only [List.length_map, List.length_drop, List.length_range]
    rfl
  · exact heff _ _
  · intro hc hN
    subst hc
    have hsel : (importPipeline hdrM pmM hdrS pmS packAnim alloc sdfGen sqrtQ
        prevSlots optionsIn parsed none).selectedData =
        selectStage false
          (importPipeline hdrM pmM hdrS pmS packAnim alloc sdfGen sqrtQ prevSlots
            optionsIn parsed none).groups
          (splitStage optionsIn
            (importPipeline hdrM pmM hdrS pmS packAnim alloc sdfGen sqrtQ prevSlots
              optionsIn parsed none).groups parsed.animations).1 parsed := rfl
    rw [hsel, heff]
    rw [selectStage, if_pos ?hguard]
    case hguard =>
      refine ⟨le_refl 0, ?_, ?_⟩
      · show (0 : Int) < _
        exact_mod_cast hN
      · rcases htype with ht | ht
        · exact Or.inl ht
        · exact Or.inr ht
    simp

/-- Caller options for the C4 witness: a splitting Model import. -/
def c4Options : Options := ⟨.model, true, -1, false, .disable, false⟩

/-- Two-name parsed model (names B and A) for the C4 witness. -/
def c4Parsed : ModelData :=
  ⟨[⟨1, [⟨[66], 0, [], 0⟩, ⟨[65], 0, [], 0⟩]⟩], [⟨[77], 0, 0, 0⟩], 0, [], []⟩

/-- Witness for C4: the fan-out theorem applies to a concrete two-group
splitting import. -/
theorem splitFanOut_witness :
    c4Options.splitObjects = true ∧
    (c4Options.type = .model ∨ c4Options.type = .skinnedModel) ∧
    (importPipeline c7Hdr c7Pm c7Hdr c7Pm (fun _ _ => some []) (fun _ => false)
      none (fun q => q) none c4Options c4Parsed none).calls.length =
      (importPipeline c7Hdr c7Pm c7Hdr c7Pm (fun _ _ => some []) (fun _ => false)
        none (fun q => q) none c4Options c4Parsed none).groups.length - 1 :=
  ⟨rfl, Or.inl rfl, (splitFanOut c7Hdr c7Pm c7Hdr c7Pm (fun _ _ => some [])
    (fun _ => false) none (fun q => q) none c4Options c4Parsed none rfl
    (Or.inl rfl)).2.1⟩

/-- C9 (amended): when the options in force at the selection stage (i.e. the
caller's options whenever `splitObjects = false`; with `splitObjects = true`
the split stage first rewrites `objectIndex` to 0) carry a negative
`objectIndex` or one not below the group count, the object-selection and
material-consolidation stage passes the model through entirely unchanged and
without error; with the independent material-restore and lightmap stages
inapplicable the parsed model reaches serialization exactly as parsed. -/
theorem objectSelectionSkip (hdrM : ModelData → Option (List Nat))
    (pmM : MeshData → Option (List Nat))
    (hdrS : ModelData → Option (List Nat))
    (pmS : MeshData → Option (List Nat))
    (packAnim : ModelData → Int → Option (List Nat))
    (alloc : Nat → Bool) (sdfGen : Option (List Nat)) (sqrtQ : ℚ → ℚ)
    (prevSlots : Option (List MaterialSlotEntry))
    (optionsIn : Options) (parsed : ModelData) :
    (∀ (fromCache : Bool) (groups : List Grouping) (opts : Options) (d : ModelData),
      (opts.objectIndex < 0 ∨ (groups.length : Int) ≤ opts.objectIndex) →
      selectStage fromCache groups opts d = d) ∧
    (optionsIn.splitObjects = false →
      optionsIn.restoreMaterialsOnReimport = false →
      optionsIn.lightmapUVsSource ≠ .generate →
      (optionsIn.objectIndex < 0 ∨
        ((importPipeline hdrM pmM hdrS pmS packAnim alloc sdfGen sqrtQ prevSlots
          optionsIn parsed none).groups.length : Int) ≤ optionsIn.objectIndex) →
      (importPipeline hdrM pmM hdrS pmS packAnim alloc sdfGen sqrtQ prevSlots
        optionsIn parsed none).serializedData = parsed) := by
  have hA : ∀ (fromCache : Bool) (groups : List Grouping) (opts : Options)
      (d : ModelData),
      (opts.objectIndex < 0 ∨ (groups.length : Int) ≤ opts.objectIndex) →
      selectStage fromCache groups opts d = d := by
    intro fromCache groups opts d hoi
    rw [selectStage, if_neg]
    rintro ⟨h1, h2, _⟩
    rcases hoi with h | h
    · omega
    · omega
  refine ⟨hA, ?_⟩
  intro hs hr hu hoi
  have hser : (importPipeline hdrM pmM hdrS pmS packAnim alloc sdfGen sqrtQ
      prevSlots optionsIn parsed none).serializedData =
      repackStage sqrtQ
        (splitStage optionsIn (importPipeline hdrM pmM hdrS pmS packAnim alloc
          sdfGen sqrtQ prevSlots optionsIn parsed none).groups parsed.animations).1
        (restoreStage
          (splitStage optionsIn (importPipeline hdrM pmM hdrS pmS packAnim alloc
            sdfGen sqrtQ prevSlots optionsIn parsed none).groups
            parsed.animations).1 prevSlots
          (selectStage false
            (importPipeline hdrM pmM hdrS pmS packAnim alloc sdfGen sqrtQ
              prevSlots optionsIn parsed none).groups
            (splitStage optionsIn (importPipeline hdrM pmM hdrS pmS packAnim alloc
              sdfGen sqrtQ prevSlots optionsIn parsed none).groups
              parsed.animations).1 parsed)) := rfl
  have hss : (splitStage optionsIn (importPipeline hdrM pmM hdrS pmS packAnim
      alloc sdfGen sqrtQ prevSlots optionsIn parsed none).groups
      parsed.animations).1 = optionsIn := by
    simp [splitStage, hs]
  rw [hser, hss]
  rw [hA false _ optionsIn parsed hoi]
  have hres : restoreStage optionsIn prevSlots parsed = parsed := by
    simp [restoreStage, hr]
  have hrep : repackStage sqrtQ optionsIn parsed = parsed := by
    simp [repackStage, hu]
  rw [hres, hrep]

/-- Caller options for the C9 counterexample: `splitObjects = true` with
`objectIndex = -1`. -/
def c9Options : Options := ⟨.model, true, -1, false, .disable, false⟩

/-- Parsed model with two material slots of which only slot 1 is referenced,
for the C9 counterexample. -/
def c9Parsed : ModelData :=
  ⟨[⟨1, [⟨[65], 1, [], 0⟩]⟩], [⟨[77], 0, 0, 0⟩, ⟨[88], 0, 0, 1⟩], 0, [], []⟩

/-- Counterexample to C9 as stated: an import whose options carry
`objectIndex = -1` but `splitObjects = true` does run selection (the split
stage forces `objectIndex = 0`), and the material table reaching
serialization differs from the parsed one. -/
theorem objectSelectionSkip_counterexample :
    c9Options.objectIndex = -1 ∧ c9Options.type = .model ∧
    (importPipeline c7Hdr c7Pm c7Hdr c7Pm (fun _ _ => some []) (fun _ => false)
      none (fun q => q) none c9Options c9Parsed none).serializedData.materials ≠
      c9Parsed.materials := by
  decide

/-- Caller options for the C9 witness: `splitObjects = false`,
`objectIndex = -1`. -/
def c9wOptions : Options := ⟨.model, false, -1, false, .disable, false⟩

/-- Witness for C9 (amended): on a concrete non-splitting import with
`objectIndex = -1` the model reaches serialization exactly as parsed. -/
theorem objectSelectionSkip_witness :
    c9wOptions.splitObjects = false ∧
    (importPipeline c7Hdr c7Pm c7Hdr c7Pm (fun _ _ => some []) (fun _ => false)
      none (fun q => q) none c9wOptions c9Parsed none).serializedData = c9Parsed :=
  ⟨rfl, (objectSelectionSkip c7Hdr c7Pm c7Hdr c7Pm (fun _ _ => some [])
    (fun _ => false) none (fun q => q) none c9wOptions c9Parsed).2 rfl rfl
    (by decide) (Or.inl (by decide))⟩

/-- Asset type tag of a storage entry (`FlaxStorage::Entry::TypeName`),
collapsed to the three names this function compares against plus "other". -/
inductive AssetTypeName where
  | model
  | skinnedModel
  | animation
  | other
  deriving DecidableEq, Repr

/-- Modelled from the spec: the asset header loaded by
`FlaxStorage::LoadAssetHeader` — its serialized version and whether its
metadata blob parses as valid JSON. -/
structure AssetInitData where
  serializedVersion : Int
  metadataParses : Bool
  deriving DecidableEq, Repr

/-- Modelled from the spec: a storage file as seen through
`ContentStorageManager::GetStorage` — its entry type tags, whether loading
the header of entry 0 fails, and the loaded header data. -/
structure StorageFile where
  entries : List AssetTypeName
  loadHeaderFails : Bool
  headerData : AssetInitData
  deriving DecidableEq, Repr

/-- Modelled from the spec: the file-system and storage state consulted by
`TryGetImportOptions` (`FileSystem::FileExists` plus the storage lookup). -/
structure StorageEnv where
  fileExists : Bool
  storage : Option StorageFile
  deriving DecidableEq, Repr

/-- `ImportModel::TryGetImportOptions`: true — deserializing the metadata
into `options` — exactly when the file exists, the storage opens with one
entry whose type/version passes the Model ≥ 4 / SkinnedModel ≥ 1 /
Animation ≥ 1 check (header load succeeding), and the metadata parses;
`deserialize` embeds the external `options.Deserialize`. -/
def tryGetImportOptions (deserialize : Options → Options) (env : StorageEnv)
    (options : Options) : Bool × Options :=
  if env.fileExists then
    match env.storage with
    | some f =>
      if f.entries.length = 1 ∧
          ((f.entries.getD 0 .other = .model ∧ f.loadHeaderFails = false ∧
              4 ≤ f.headerData.serializedVersion) ∨
            (f.entries.getD 0 .other = .skinnedModel ∧ f.loadHeaderFails = false ∧
              1 ≤ f.headerData.serializedVersion) ∨
            (f.entries.getD 0 .other = .animation ∧ f.loadHeaderFails = false ∧
              1 ≤ f.headerData.serializedVersion)) then
        if f.headerData.metadataParses then (true, deserialize options)
        else (false, options)
      else (false, options)
    | none => (false, options)
  else (false, options)

/-- C10: `TryGetImportOptions` returns true exactly when the file exists,
the storage holds exactly one entry passing the per-type serialized-version
check with a successfully loaded header, and the metadata parses as JSON;
whenever it returns false the options object is left unmodified. -/
theorem tryGetImportOptions_spec (deserialize : Options → Options)
    (env : StorageEnv) (options : Options) :
    ((tryGetImportOptions deserialize env options).1 = true ↔
      (env.fileExists = true ∧ ∃ f, env.storage = some f ∧
        f.entries.length = 1 ∧
        ((f.entries.getD 0 .other = .model ∧ f.loadHeaderFails = false ∧
            4 ≤ f.headerData.serializedVersion) ∨
          (f.entries.getD 0 .other = .skinnedModel ∧ f.loadHeaderFails = false ∧
            1 ≤ f.headerData.serializedVersion) ∨
          (f.entries.getD 0 .other = .animation ∧ f.loadHeaderFails = false ∧
            1 ≤ f.headerData.serializedVersion)) ∧
        f.headerData.metadataParses = true)) ∧
    ((tryGetImportOptions deserialize env options).1 = false →
      (tryGetImportOptions deserialize env options).2 = options) := by
  obtain ⟨fe, st⟩ := env
  cases fe with
  | false =>
    refine ⟨⟨fun h => ?_, fun h => ?_⟩, fun _ => rfl⟩
    · simp [tryGetImportOptions] at h
    · obtain ⟨h1, _⟩ := h
      cases h1
  | true =>
    cases st with
    | none =>
      refine ⟨⟨fun h => ?_, fun h => ?_⟩, fun _ => rfl⟩
      · simp [tryGetImportOptions] at h
      · obtain ⟨_, f, hsf, _⟩ := h
        cases hsf
    | some f =>
      have hunfold : tryGetImportOptions deserialize ⟨true, some f⟩ options =
          (if f.entries.length = 1 ∧
              ((f.entries.getD 0 .other = .model ∧ f.loadHeaderFails = false ∧
                  4 ≤ f.headerData.serializedVersion) ∨
                (f.entries.getD 0 .other = .skinnedModel ∧ f.loadHeaderFails = false ∧
                  1 ≤ f.headerData.serializedVersion) ∨
                (f.entries.getD 0 .other = .animation ∧ f.loadHeaderFails = false ∧
                  1 ≤ f.headerData.serializedVersion)) then
            (if f.headerData.metadataParses then (true, deserialize options)
             else (false, options))
          else (false, options)) := rfl
      rw [hunfold]
      by_cases hc : f.entries.length = 1 ∧
          ((f.entries.getD 0 .other = .model ∧ f.loadHeaderFails = false ∧
              4 ≤ f.headerData.serializedVersion) ∨
            (f.entries.getD 0 .other = .skinnedModel ∧ f.loadHeaderFails = false ∧
              1 ≤ f.headerData.serializedVersion) ∨
            (f.entries.getD 0 .other = .animation ∧ f.loadHeaderFails = false ∧
              1 ≤ f.headerData.serializedVersion))
      · cases hm : f.headerData.metadataParses with
        | true =>
          rw [if_pos hc, if_pos (show true = true from rfl)]
          refine ⟨⟨fun _ => ⟨rfl, f, rfl, hc.1, hc.2, hm⟩, fun _ => rfl⟩, fun h => ?_⟩
          cases h
        | false =>
          rw [if_pos hc, if_neg (show ¬(false = true) from fun hcc => Bool.noConfusion hcc)]
          refine ⟨⟨fun h => ?_, fun h => ?_⟩, fun _ => rfl⟩
          · cases h
          · obtain ⟨_, f', hsf, _, _, hm'⟩ := h
            injection hsf with hsf
            rw [← hsf, hm] at hm'
            cases hm'
      · rw [if_neg hc]
        refine ⟨⟨fun h => ?_, fun h => ?_⟩, fun _ => rfl⟩
        · cases h
        · obtain ⟨_, f', hsf, h1, h2, _⟩ := h
          injection hsf with hsf
          rw [← hsf] at h1 h2
          exact absurd ⟨h1, h2⟩ hc

/-- Absent-file storage environment for the C10 witness. -/
def c10Env : StorageEnv := ⟨false, none⟩

/-- Concrete options record for the C10 witness. -/
def c10Opts : Options := ⟨.model, false, -1, false, .disable, false⟩

/-- Witness for C10: on a missing file the function returns false and leaves
the options untouched, via the specification theorem. -/
theorem tryGetImportOptions_spec_witness :
    (tryGetImportOptions (fun o => o) c10Env c10Opts).1 = false ∧
    (tryGetImportOptions (fun o => o) c10Env c10Opts).2 = c10Opts :=
  ⟨rfl, (tryGetImportOptions_spec (fun o => o) c10Env c10Opts).2 rfl⟩
